import Mathlib

/-!
Shallow embedding of `BaseTools/Source/Python/BrotliCompress/brotli.py`.

The external `_brotli` engine is opaque in the source (imported C module);
it is modelled as a record of its three operations, and theorems quantify
over all engines.  Bytes are modelled as `Nat` (values produced by the
header encoder are `< 256` by construction); byte strings are `List Nat`.
Python exceptions are modelled with `Except`: the engine raises
`_brotli.error` carrying a message (`String`), and `int.to_bytes` raises
`OverflowError`.
-/

/- Brotli defaults, from the source. -/

def BROTLI_DEFAULT_LGWIN : Nat := 22

def BROTLI_MIN_WINDOW_BITS : Nat := 10

def BROTLI_MAX_WINDOW_BITS : Nat := 24

def BROTLI_WINDOW_GAP : Nat := 16

def BROTLI_DEFAULT_LGBLOCK : Nat := 0

def BROTLI_DEFAULT_QUALITY : Nat := 9

def DECODE_HEADER_SIZE : Nat := 0x10

/-- `mode=_brotli.MODE_GENERIC`: an opaque enumerated tag; its value never
matters to the orchestration layer, we fix 0. -/
def MODE_GENERIC : Nat := 0

/-- The lambda `max_backward_limit = lambda w: (1 << w) - BROTLI_WINDOW_GAP`
inside `calc_lgwin`. -/
def max_backward_limit (w : Nat) : Nat := (1 <<< w) - BROTLI_WINDOW_GAP

/-- The `while` loop of `calc_lgwin`, with explicit fuel so that the
definition is structurally recursive (hence kernel-reducible).  The loop
body runs only while `lgwin < BROTLI_MAX_WINDOW_BITS`, so with the fuel
invariant `fuel + lgwin = BROTLI_MAX_WINDOW_BITS` (as established by
`calc_lgwin`) the fuel never runs out before the guard fails: the fuelled
loop computes exactly what the `while` loop computes. -/
def calc_lgwin_go (datalen : Nat) : Nat → Nat → Nat
  | 0, lgwin => lgwin
  | fuel + 1, lgwin =>
    if max_backward_limit lgwin < datalen ∧ lgwin < BROTLI_MAX_WINDOW_BITS then
      calc_lgwin_go datalen fuel (lgwin + 1)
    else lgwin

/-- `calc_lgwin(datalen)` from the source: start at `BROTLI_MIN_WINDOW_BITS`
and increment while `max_backward_limit(lgwin) < datalen` and
`lgwin < BROTLI_MAX_WINDOW_BITS`. -/
def calc_lgwin (datalen : Nat) : Nat :=
  calc_lgwin_go datalen (BROTLI_MAX_WINDOW_BITS - BROTLI_MIN_WINDOW_BITS)
    BROTLI_MIN_WINDOW_BITS

/-- Python exceptions observable in this program: `_brotli.error` (with its
message) and `OverflowError` (from `int.to_bytes`). -/
inductive PyError where
  | brotli (msg : String)
  | overflow
deriving DecidableEq

/-- Equality of `Except` values is decidable when it is on both sides;
used to evaluate the model on concrete inputs. -/
instance {ε α : Type} [DecidableEq ε] [DecidableEq α] :
    DecidableEq (Except ε α) := fun x y =>
  match x, y with
  | .ok a, .ok b =>
    if h : a = b then .isTrue (by rw [h])
    else .isFalse (fun hc => h (Except.ok.inj hc))
  | .error a, .error b =>
    if h : a = b then .isTrue (by rw [h])
    else .isFalse (fun hc => h (Except.error.inj hc))
  | .ok _, .error _ => .isFalse (fun hc => Except.noConfusion hc)
  | .error _, .ok _ => .isFalse (fun hc => Except.noConfusion hc)

/-- The opaque `_brotli` engine: `Compressor(...).process`,
`Compressor(...).finish` and `_brotli.decompress`.  Since the source
creates one compressor per `compress` call, feeds it the whole payload in
one `process` call and then calls `finish`, the compressor state is
modelled by passing the constructor parameters and the processed payload
to both operations.  An `Except.error` models a raised `_brotli.error`,
carrying the exception's message. -/
structure Engine where
  process : Nat → Nat → Nat → Nat → List Nat → Except String (List Nat)
  finish : Nat → Nat → Nat → Nat → List Nat → Except String (List Nat)
  decompress : List Nat → Except String (List Nat)

/-- Little-endian base-256 digits, exactly `k` of them: the byte string
produced by Python's `int.to_bytes(k, 'little')` when the value fits. -/
def to_bytes_le : Nat → Nat → List Nat
  | 0, _ => []
  | k + 1, n => n % 256 :: to_bytes_le k (n / 256)

/-- Python's `int.to_bytes(n, len, 'little')`: `len` little-endian bytes,
raising `OverflowError` when `n` does not fit in `len` bytes. -/
def int_to_bytes (n : Nat) (len : Nat) : Except PyError (List Nat) :=
  if n < 256 ^ len then .ok (to_bytes_le len n) else .error .overflow

/-- `compress(data, quality, lgwin, lgblock, mode, backward)` from the
source: run the engine (`process` then `finish`, concatenating), then if
`backward` prepend `int.to_bytes(len(data), DECODE_HEADER_SIZE, 'little')`. -/
def compress (eng : Engine) (data : List Nat) (quality lgwin lgblock mode : Nat)
    (backward : Bool) : Except PyError (List Nat) :=
  match eng.process mode quality lgwin lgblock data with
  | .error e => .error (.brotli e)
  | .ok p =>
    match eng.finish mode quality lgwin lgblock data with
    | .error e => .error (.brotli e)
    | .ok f =>
      let output := p ++ f
      if backward then
        match int_to_bytes data.length DECODE_HEADER_SIZE with
        | .error e => .error e
        | .ok input_len_arr => .ok (input_len_arr ++ output)
      else .ok output

/-- `decompress(data)` from the source: try `_brotli.decompress(data)`;
on a `_brotli.error`, if `len(data) > DECODE_HEADER_SIZE` retry on
`data[DECODE_HEADER_SIZE:]` (the retry is NOT wrapped in a `try`, so a
failing retry raises the retry's own error); otherwise re-raise the
original error. -/
def decompress (eng : Engine) (data : List Nat) : Except PyError (List Nat) :=
  match eng.decompress data with
  | .ok r => .ok r
  | .error e =>
    if DECODE_HEADER_SIZE < data.length then
      match eng.decompress (List.drop DECODE_HEADER_SIZE data) with
      | .ok r => .ok r
      | .error e2 => .error (.brotli e2)
    else .error (.brotli e)

/- The CLI layer (`setup_parser` / `main`). -/

/-- The parsed command-line options, one field per `add_argument` in the
source (plus the mutually exclusive `-e`/`-d` pair, recorded in `emode`:
`true` for `--compress`, `false` for `--decompress`).  Numeric options are
modelled as `Nat`; `lgwin` has no default (`none` means "not supplied"). -/
structure Args where
  emode : Bool
  infile : String
  output : String
  quality : Nat
  gap : Nat
  lgwin : Option Nat
  lgblock : Nat
  backward : Bool

/-- The `choices=` validation argparse performs while parsing:
`quality ∈ range(0,12)`, `gap ∈ range(1,17)`, `lgwin ∈ range(10,25)` when
supplied, `lgblock ∈ [0] + range(16,25)`.  An out-of-range value makes
argparse report a usage error and exit before `main`'s body runs. -/
def choices_ok (a : Args) : Bool :=
  decide (a.quality < 12) &&
  decide (1 ≤ a.gap ∧ a.gap < 17) &&
  (match a.lgwin with
   | none => true
   | some w => decide (10 ≤ w ∧ w < 25)) &&
  (decide (a.lgblock = 0) || decide (16 ≤ a.lgblock ∧ a.lgblock < 25))

/-- File system state: each path maps to its content, `none` if absent. -/
def FS : Type := String → Option (List Nat)

/-- Write (create or overwrite) one file. -/
def fs_set (fs : FS) (path : String) (v : List Nat) : FS :=
  fun q => if q = path then some v else fs q

/-- How one program run terminates: normally (`ok`), via an argparse usage
error, exit code 2 (`usage_error`: bad choice or `parser.error` on a
missing input file), via `parser.exit(1, ...)` on a caught `_brotli.error`
(`brotli_error`), or by an uncaught exception such as `OverflowError`
(`uncaught`). -/
inductive ExitCode where
  | ok
  | usage_error
  | brotli_error
  | uncaught
deriving DecidableEq

/-- The body of `main`'s `try` block: derive `lgwin` via `calc_lgwin` when
it was not supplied, then dispatch to `compress` or `decompress`. -/
def run_op (eng : Engine) (a : Args) (data : List Nat) :
    Except PyError (List Nat) :=
  if a.emode then
    compress eng data a.quality
      (match a.lgwin with
       | none => calc_lgwin data.length
       | some w => w)
      a.lgblock MODE_GENERIC a.backward
  else decompress eng data

/-- `main` from the source, as a state transformer on the file system:
argparse validates choices; `os.path.isfile` is checked (else
`parser.error`, exit 2); the input is read; the output file is opened with
mode `'wb'`, which creates it or truncates it to empty BEFORE the
compression/decompression runs; a caught `_brotli.error` exits with code 1
(leaving the output file empty); otherwise the result is written.
(Named `brotli_main` because Lean reserves `main` for program entry
points.) -/
def brotli_main (eng : Engine) (fs : FS) (a : Args) : FS × ExitCode :=
  if choices_ok a = false then (fs, .usage_error)
  else
    match fs a.infile with
    | none => (fs, .usage_error)
    | some data =>
      let fs1 := fs_set fs a.output []
      match run_op eng a data with
      | .error (.brotli _) => (fs1, .brotli_error)
      | .error .overflow => (fs1, .uncaught)
      | .ok out => (fs_set fs1 a.output out, .ok)

/- Concrete engines and inputs used by witnesses and counterexamples. -/

/-- A simple conforming test engine: the compressed body of `data` is
`0 :: data`, and decompression inverts exactly that framing, failing with
message "bad" on anything else. -/
def engRT : Engine :=
  ⟨fun _ _ _ _ d => .ok (0 :: d),
   fun _ _ _ _ _ => .ok [],
   fun d =>
     match d with
     | 0 :: r => .ok r
     | _ => .error "bad"⟩

/-- A degenerate engine whose compressed body is always empty and whose
decompression accepts exactly the empty stream. -/
def engEmpty : Engine :=
  ⟨fun _ _ _ _ _ => .ok [],
   fun _ _ _ _ _ => .ok [],
   fun d =>
     match d with
     | [] => .ok []
     | _ => .error "pad"⟩

/-- An engine whose decompression distinguishes inputs only by length,
failing with message "first" on 17-byte inputs and "second" otherwise. -/
def engTwoErr : Engine :=
  ⟨fun _ _ _ _ d => .ok d,
   fun _ _ _ _ _ => .ok [],
   fun d =>
     if d.length = 17 then .error "first" else .error "second"⟩

/-- An engine that always raises `_brotli.error` with message "boom". -/
def engFail : Engine :=
  ⟨fun _ _ _ _ _ => .error "boom",
   fun _ _ _ _ _ => .error "boom",
   fun _ => .error "boom"⟩

/-- A file system holding one input file `"in"` with a single byte. -/
def fs_in : FS := fun p => if p = "in" then some [1] else none

/-- A compression invocation `brotli -e in -o out` with all defaults. -/
def args_e : Args :=
  ⟨true, "in", "out", BROTLI_DEFAULT_QUALITY, 1, none, BROTLI_DEFAULT_LGBLOCK,
   false⟩

/-- Replace the `--gap` value of an `Args`. -/
def set_gap (a : Args) (g : Nat) : Args :=
  ⟨a.emode, a.infile, a.output, a.quality, g, a.lgwin, a.lgblock, a.backward⟩

/-- Replace the `--lgwin` value of an `Args`. -/
def set_lgwin (a : Args) (w : Option Nat) : Args :=
  ⟨a.emode, a.infile, a.output, a.quality, a.gap, w, a.lgblock, a.backward⟩

/-- Replace the `--quality` value of an `Args`. -/
def set_quality (a : Args) (q : Nat) : Args :=
  ⟨a.emode, a.infile, a.output, q, a.gap, a.lgwin, a.lgblock, a.backward⟩

/- Helper lemmas about the window-size loop. -/

theorem max_backward_limit_mono {w v : Nat} (h : w ≤ v) :
    max_backward_limit w ≤ max_backward_limit v := by
  unfold max_backward_limit
  have h1 : (1 <<< w) ≤ (1 <<< v) := by
    simp only [Nat.one_shiftLeft]
    exact Nat.pow_le_pow_right (by norm_num) h
  omega

theorem calc_lgwin_go_ge (d : Nat) :
    ∀ fuel w, w ≤ calc_lgwin_go d fuel w := by
  intro fuel
  induction fuel with
  | zero => intro w; simp [calc_lgwin_go]
  | succ k ih =>
    intro w
    simp only [calc_lgwin_go]
    split
    · exact le_trans (Nat.le_succ w) (ih (w + 1))
    · exact le_refl w

theorem calc_lgwin_go_le (d : Nat) :
    ∀ fuel w, calc_lgwin_go d fuel w ≤ w + fuel := by
  intro fuel
  induction fuel with
  | zero => intro w; simp [calc_lgwin_go]
  | succ k ih =>
    intro w
    simp only [calc_lgwin_go]
    split
    · have := ih (w + 1)
      omega
    · omega

theorem calc_lgwin_go_exit (d : Nat) :
    ∀ fuel w, w + fuel = BROTLI_MAX_WINDOW_BITS →
      d ≤ max_backward_limit (calc_lgwin_go d fuel w) ∨
        calc_lgwin_go d fuel w = BROTLI_MAX_WINDOW_BITS := by
  intro fuel
  induction fuel with
  | zero =>
    intro w h
    right
    simpa [calc_lgwin_go] using h
  | succ k ih =>
    intro w h
    simp only [calc_lgwin_go]
    split
    · exact ih (w + 1) (by omega)
    · rename_i hcond
      rcases not_and_or.mp hcond with h1 | h2
      · exact Or.inl (Nat.le_of_not_lt h1)
      · omega

theorem calc_lgwin_go_min (d : Nat) :
    ∀ fuel w v, w ≤ v → d ≤ max_backward_limit v →
      calc_lgwin_go d fuel w ≤ v := by
  intro fuel
  induction fuel with
  | zero => intro w v hwv _; simpa [calc_lgwin_go] using hwv
  | succ k ih =>
    intro w v hwv hv
    simp only [calc_lgwin_go]
    split
    · rename_i hcond
      have hlt : w < v := by
        by_contra hc
        have := max_backward_limit_mono (Nat.le_of_not_lt hc)
        omega
      exact ih (w + 1) v hlt hv
    · exact hwv

theorem calc_lgwin_ge (d : Nat) : BROTLI_MIN_WINDOW_BITS ≤ calc_lgwin d :=
  calc_lgwin_go_ge d _ BROTLI_MIN_WINDOW_BITS

theorem calc_lgwin_le (d : Nat) : calc_lgwin d ≤ BROTLI_MAX_WINDOW_BITS := by
  have := calc_lgwin_go_le d (BROTLI_MAX_WINDOW_BITS - BROTLI_MIN_WINDOW_BITS)
    BROTLI_MIN_WINDOW_BITS
  unfold calc_lgwin
  simp only [BROTLI_MIN_WINDOW_BITS, BROTLI_MAX_WINDOW_BITS] at *
  omega

theorem calc_lgwin_exit (d : Nat) :
    d ≤ max_backward_limit (calc_lgwin d) ∨
      calc_lgwin d = BROTLI_MAX_WINDOW_BITS :=
  calc_lgwin_go_exit d (BROTLI_MAX_WINDOW_BITS - BROTLI_MIN_WINDOW_BITS)
    BROTLI_MIN_WINDOW_BITS (by simp [BROTLI_MIN_WINDOW_BITS, BROTLI_MAX_WINDOW_BITS])

theorem calc_lgwin_min (d : Nat) (v : Nat) (hv : BROTLI_MIN_WINDOW_BITS ≤ v)
    (hcap : d ≤ max_backward_limit v) : calc_lgwin d ≤ v :=
  calc_lgwin_go_min d (BROTLI_MAX_WINDOW_BITS - BROTLI_MIN_WINDOW_BITS)
    BROTLI_MIN_WINDOW_BITS v hv hcap

theorem max_backward_limit_val (w : Nat) :
    max_backward_limit w = (1 <<< w) - 16 := rfl

/-! Claim theorems. -/

/-- C5: for every `n`, `calc_lgwin n` lies in `[10, 24]`; whenever any
exponent in range has capacity `(1 <<< w) - 16 ≥ n` the result itself has
capacity for `n` and is the smallest such exponent; when no exponent in
`[10, 24]` has capacity the result is `24`; and at the boundaries
`calc_lgwin 0 = 10` and `calc_lgwin (2 ^ 30) = 24`. -/
theorem calc_lgwin_spec (n : Nat) :
    10 ≤ calc_lgwin n ∧ calc_lgwin n ≤ 24 ∧
    (n ≤ (1 <<< 24) - 16 → n ≤ (1 <<< calc_lgwin n) - 16) ∧
    (∀ w, 10 ≤ w → n ≤ (1 <<< w) - 16 → calc_lgwin n ≤ w) ∧
    ((∀ w, 10 ≤ w → w ≤ 24 → ¬ n ≤ (1 <<< w) - 16) → calc_lgwin n = 24) ∧
    calc_lgwin 0 = 10 ∧ calc_lgwin (2 ^ 30) = 24 := by
  refine ⟨calc_lgwin_ge n, calc_lgwin_le n, ?_, ?_, ?_, by decide, by decide⟩
  · intro hle
    rcases calc_lgwin_exit n with h | h
    · rw [max_backward_limit_val] at h
      exact h
    · rw [h]
      exact hle
  · intro w hw hcap
    exact calc_lgwin_min n w hw (by rw [max_backward_limit_val]; exact hcap)
  · intro hnone
    rcases calc_lgwin_exit n with h | h
    · exact absurd (by rw [max_backward_limit_val] at h; exact h)
        (hnone _ (calc_lgwin_ge n) (calc_lgwin_le n))
    · exact h

/-- C5 witness: instantiating `calc_lgwin_spec` at 5000 pins the result to
exactly 13 (the least exponent whose capacity covers 5000 bytes). -/
theorem calc_lgwin_spec_witness :
    calc_lgwin 5000 ≤ 13 ∧ 10 ≤ calc_lgwin 5000 ∧ calc_lgwin 0 = 10 :=
  ⟨(calc_lgwin_spec 5000).2.2.2.1 13 (by norm_num) (by decide),
   (calc_lgwin_spec 5000).1, (calc_lgwin_spec 0).2.2.2.2.2.1⟩

theorem to_bytes_le_length : ∀ k n, (to_bytes_le k n).length = k
  | 0, _ => rfl
  | k + 1, n => by simp [to_bytes_le, to_bytes_le_length k]

/-- C2: `decompress` first attempts the direct engine call and returns its
result on success; exactly when that attempt fails AND `len(data) > 16`,
it retries once on `data[16:]` (for any engine and any data — the retried
input is always exactly the 16-byte-stripped remainder, no bytes are
inspected), returning the retry's result on success; with 16 or fewer
bytes no retry happens. -/
theorem decompress_fallback_behavior (eng : Engine) (data : List Nat) :
    (∀ r, eng.decompress data = .ok r → decompress eng data = .ok r) ∧
    (∀ e r2, eng.decompress data = .error e →
      DECODE_HEADER_SIZE < data.length →
      eng.decompress (List.drop DECODE_HEADER_SIZE data) = .ok r2 →
      decompress eng data = .ok r2) ∧
    (∀ e e2, eng.decompress data = .error e →
      DECODE_HEADER_SIZE < data.length →
      eng.decompress (List.drop DECODE_HEADER_SIZE data) = .error e2 →
      decompress eng data = .error (.brotli e2)) ∧
    (∀ e, eng.decompress data = .error e →
      data.length ≤ DECODE_HEADER_SIZE →
      decompress eng data = .error (.brotli e)) := by
  refine ⟨?_, ?_, ?_, ?_⟩
  · intro r h
    simp [decompress, h]
  · intro e r2 h1 hlen h2
    simp [decompress, h1, h2, hlen]
  · intro e e2 h1 hlen h2
    simp [decompress, h1, h2, hlen]
  · intro e h1 hlen
    simp [decompress, h1, Nat.not_lt.mpr hlen]

/-- C2 witness: with the test engine `engRT`, a 19-byte header-prefixed
stream fails directly and succeeds after stripping the 16-byte header. -/
theorem decompress_fallback_behavior_witness :
    decompress engRT (to_bytes_le 16 2 ++ [0, 1, 2]) = .ok [1, 2] :=
  (decompress_fallback_behavior engRT (to_bytes_le 16 2 ++ [0, 1, 2])).2.1
    "bad" [1, 2] (by decide) (by decide) (by decide)

/-- C3 counterexample: with an engine whose direct attempt on a 17-byte
stream fails with error "first" and whose retry on the stripped remainder
fails with error "second", `decompress` raises the retry's error "second",
not the original error "first": the retry in the source is not wrapped in
a `try`, so its exception replaces the original one. -/
theorem retry_error_shadows_original :
    engTwoErr.decompress (List.replicate 17 0) = .error "first" ∧
    DECODE_HEADER_SIZE < (List.replicate 17 0).length ∧
    engTwoErr.decompress
      (List.drop DECODE_HEADER_SIZE (List.replicate 17 0)) = .error "second" ∧
    decompress engTwoErr (List.replicate 17 0) = .error (.brotli "second") ∧
    decompress engTwoErr (List.replicate 17 0) ≠ .error (.brotli "first") := by
  decide

/-- C3 (amended): when decompression fails terminally, the error raised is
the ORIGINAL direct-attempt error only in the short-data case
(`len(data) ≤ 16`); when the header-stripped retry fails, the retry's own
error is raised instead. -/
theorem decompress_error_propagation (eng : Engine) (data : List Nat)
    (e : String) (h : eng.decompress data = .error e) :
    (data.length ≤ DECODE_HEADER_SIZE →
      decompress eng data = .error (.brotli e)) ∧
    (∀ e2, DECODE_HEADER_SIZE < data.length →
      eng.decompress (List.drop DECODE_HEADER_SIZE data) = .error e2 →
      decompress eng data = .error (.brotli e2)) := by
  constructor
  · intro hlen
    simp [decompress, h, Nat.not_lt.mpr hlen]
  · intro e2 hlen h2
    simp [decompress, h, h2, hlen]

/-- C3 witness: a 1-byte invalid stream raises the original error. -/
theorem decompress_error_propagation_witness :
    decompress engTwoErr [0] = .error (.brotli "second") :=
  (decompress_error_propagation engTwoErr [0] "second" (by decide)).1
    (by decide)

/-- C1 counterexample: the engine `engEmpty` satisfies the claim's engine
contract at `b = []` — its decompression inverts its own process+finish
output, and fails with a decode error on the header-prefixed stream — yet
decompressing the legacy-compressed empty payload fails instead of
returning `[]`: the 16-byte output (header + empty body) does not meet the
strict `len(data) > 16` requirement of the fallback, so the header is
never stripped. -/
theorem legacy_roundtrip_empty_body_fails :
    engEmpty.process MODE_GENERIC 9 10 0 [] = .ok [] ∧
    engEmpty.finish MODE_GENERIC 9 10 0 [] = .ok [] ∧
    engEmpty.decompress ([] ++ []) = .ok [] ∧
    engEmpty.decompress (to_bytes_le DECODE_HEADER_SIZE 0 ++ ([] ++ [])) =
      .error "pad" ∧
    compress engEmpty [] 9 10 0 MODE_GENERIC true =
      .ok (to_bytes_le DECODE_HEADER_SIZE 0) ∧
    decompress engEmpty (to_bytes_le DECODE_HEADER_SIZE 0) ≠ .ok [] := by
  decide

/-- C1 (amended): the legacy round-trip holds under the engine contract
PROVIDED the engine's compressed body `p ++ f` is nonempty (true of any
real engine): if the engine's decompression inverts its process+finish
output on `b` and fails with a decode error on the header-prefixed stream,
then decompressing `compress(b, backward := true)` returns `b` exactly. -/
theorem legacy_roundtrip_nonempty_body (eng : Engine) (b p f out : List Nat)
    (quality lgwin lgblock mode : Nat)
    (hp : eng.process mode quality lgwin lgblock b = .ok p)
    (hf : eng.finish mode quality lgwin lgblock b = .ok f)
    (hbody : p ++ f ≠ [])
    (hinv : eng.decompress (p ++ f) = .ok b)
    (hfail : ∃ e, eng.decompress
      (to_bytes_le DECODE_HEADER_SIZE b.length ++ (p ++ f)) = .error e)
    (hlen : b.length < 2 ^ 128)
    (hout : compress eng b quality lgwin lgblock mode true = .ok out) :
    decompress eng out = .ok b := by
  obtain ⟨e, he⟩ := hfail
  have h256 : b.length < 256 ^ DECODE_HEADER_SIZE := by
    have hpow : (256 : Nat) ^ DECODE_HEADER_SIZE = 2 ^ 128 := by
      norm_num [DECODE_HEADER_SIZE]
    omega
  have hout' : out = to_bytes_le DECODE_HEADER_SIZE b.length ++ (p ++ f) := by
    unfold compress at hout
    rw [hp, hf] at hout
    simp [int_to_bytes, h256] at hout
    exact hout.symm
  subst hout'
  have hlen16 : (to_bytes_le DECODE_HEADER_SIZE b.length).length =
      DECODE_HEADER_SIZE := to_bytes_le_length _ _
  have hpos : 0 < (p ++ f).length := List.length_pos.mpr hbody
  have hgt : DECODE_HEADER_SIZE <
      (to_bytes_le DECODE_HEADER_SIZE b.length ++ (p ++ f)).length := by
    rw [List.length_append, hlen16]
    omega
  have hdrop : List.drop DECODE_HEADER_SIZE
      (to_bytes_le DECODE_HEADER_SIZE b.length ++ (p ++ f)) = p ++ f := by
    rw [← hlen16]
    exact List.drop_left _ _
  have hpf : (p ++ f).length = p.length + f.length := List.length_append p f
  simp [decompress, he, hgt, hdrop, hinv]
  rw [hlen16]
  omega

/-- C1 witness: with the test engine `engRT` and payload `[1, 2]`, the
legacy-compressed stream decompresses back to `[1, 2]` via the fallback. -/
theorem legacy_roundtrip_nonempty_body_witness :
    decompress engRT (to_bytes_le DECODE_HEADER_SIZE 2 ++ ([0, 1, 2] ++ []))
      = .ok [1, 2] :=
  legacy_roundtrip_nonempty_body engRT [1, 2] [0, 1, 2] []
    (to_bytes_le DECODE_HEADER_SIZE 2 ++ ([0, 1, 2] ++ [])) 9 22 0
    MODE_GENERIC rfl rfl (by decide) (by decide) ⟨"bad", by decide⟩
    (by norm_num) (by decide)

/-- C6: for every payload shorter than `2 ^ 128` bytes and every engine
run that succeeds with body `p ++ f`, the legacy-mode (`backward = true`)
output of `compress` is exactly the 16-byte little-endian encoding of
`len(data)` prepended to the compressed body, and with the flag unset the
output is the body alone, with no prefix. -/
theorem compress_output_format (eng : Engine) (data p f : List Nat)
    (quality lgwin lgblock mode : Nat)
    (hp : eng.process mode quality lgwin lgblock data = .ok p)
    (hf : eng.finish mode quality lgwin lgblock data = .ok f)
    (hlen : data.length < 2 ^ 128) :
    compress eng data quality lgwin lgblock mode true =
      .ok (to_bytes_le DECODE_HEADER_SIZE data.length ++ (p ++ f)) ∧
    (to_bytes_le DECODE_HEADER_SIZE data.length).length = DECODE_HEADER_SIZE ∧
    compress eng data quality lgwin lgblock mode false = .ok (p ++ f) := by
  have h256 : data.length < 256 ^ DECODE_HEADER_SIZE := by
    have hpow : (256 : Nat) ^ DECODE_HEADER_SIZE = 2 ^ 128 := by
      norm_num [DECODE_HEADER_SIZE]
    omega
  refine ⟨?_, to_bytes_le_length _ _, ?_⟩
  · unfold compress
    rw [hp, hf]
    simp [int_to_bytes, h256]
  · unfold compress
    rw [hp, hf]
    simp

/-- C6 witness: with the test engine `engRT` and payload `[5]`, the
legacy output is the 16-byte header followed by the body `[0, 5]`. -/
theorem compress_output_format_witness :
    compress engRT [5] 9 22 0 MODE_GENERIC true =
      .ok (to_bytes_le DECODE_HEADER_SIZE 1 ++ ([0, 5] ++ [])) :=
  (compress_output_format engRT [5] [0, 5] [] 9 22 0 MODE_GENERIC rfl rfl
    (by norm_num)).1

/-- C9: the legacy header encoder (`int.to_bytes` at width 16) raises
`OverflowError` for every length `≥ 2 ^ 128` rather than wrapping or
truncating, and for every length `< 2 ^ 128` it returns exactly 16
bytes. -/
theorem header_encoding_overflow (n : Nat) :
    (2 ^ 128 ≤ n →
      int_to_bytes n DECODE_HEADER_SIZE = .error PyError.overflow) ∧
    (n < 2 ^ 128 →
      int_to_bytes n DECODE_HEADER_SIZE =
        .ok (to_bytes_le DECODE_HEADER_SIZE n) ∧
      (to_bytes_le DECODE_HEADER_SIZE n).length = DECODE_HEADER_SIZE) := by
  have hpow : (256 : Nat) ^ DECODE_HEADER_SIZE = 2 ^ 128 := by
    norm_num [DECODE_HEADER_SIZE]
  constructor
  · intro h
    have hn : ¬ n < 256 ^ DECODE_HEADER_SIZE := by omega
    simp [int_to_bytes, hn]
  · intro h
    have hn : n < 256 ^ DECODE_HEADER_SIZE := by omega
    exact ⟨by simp [int_to_bytes, hn], to_bytes_le_length _ _⟩

/-- C9 witness: length `2 ^ 128` overflows; length 1000 encodes to exactly
16 bytes. -/
theorem header_encoding_overflow_witness :
    int_to_bytes (2 ^ 128) DECODE_HEADER_SIZE = .error PyError.overflow ∧
    int_to_bytes 1000 DECODE_HEADER_SIZE =
      .ok (to_bytes_le DECODE_HEADER_SIZE 1000) ∧
    (to_bytes_le DECODE_HEADER_SIZE 1000).length = DECODE_HEADER_SIZE :=
  ⟨(header_encoding_overflow (2 ^ 128)).1 (le_refl _),
   ((header_encoding_overflow 1000).2 (by norm_num)).1,
   ((header_encoding_overflow 1000).2 (by norm_num)).2⟩

/-- C4: a compression invocation with quality 12, or window exponent 9 or
25, is rejected by the argument layer's `choices` validation: for EVERY
engine and every file system the run exits with the usage error and the
file system is untouched — the result does not depend on the engine in any
way, so no engine instance is constructed and no process/finish call
occurs. -/
theorem cli_rejects_out_of_range_params (eng : Engine) (fs : FS) (a : Args)
    (h : a.quality = 12 ∨ a.lgwin = some 9 ∨ a.lgwin = some 25) :
    brotli_main eng fs a = (fs, ExitCode.usage_error) := by
  have hbad : choices_ok a = false := by
    rcases h with h | h | h <;> simp [choices_ok, h]
  simp [brotli_main, hbad]

/-- C4 witness: `brotli -e in -o out -q 12` is rejected with the usage
error and the file system is unchanged. -/
theorem cli_rejects_out_of_range_params_witness :
    brotli_main engRT fs_in (set_quality args_e 12) =
      (fs_in, ExitCode.usage_error) :=
  cli_rejects_out_of_range_params engRT fs_in (set_quality args_e 12)
    (Or.inl rfl)

/-- C7 counterexample: on an engine error the output file IS created:
`main` opens the output file with mode 'wb' (create or truncate) BEFORE
running the engine, so with the always-failing engine `engFail` the run
exits with the brotli error, yet the previously absent file "out" now
exists (empty). -/
theorem engine_error_truncates_output_file :
    fs_in "out" = none ∧
    (brotli_main engFail fs_in args_e).2 = ExitCode.brotli_error ∧
    (brotli_main engFail fs_in args_e).1 "out" = some [] := by
  decide

/-- C7 (amended): a validation error or a missing input file leaves the
file system untouched, and an engine error never leaves PARTIAL output
bytes: when the engine raises during compression or decompression the
output file exists but is exactly empty, because `main` had already
opened it for writing (creating it or truncating it) before the operation
ran, and the write of the result never executes. -/
theorem error_paths_output_file (eng : Engine) (fs : FS) (a : Args) :
    (choices_ok a = false →
      brotli_main eng fs a = (fs, ExitCode.usage_error)) ∧
    (choices_ok a = true → fs a.infile = none →
      brotli_main eng fs a = (fs, ExitCode.usage_error)) ∧
    (∀ data e, choices_ok a = true → fs a.infile = some data →
      run_op eng a data = .error (.brotli e) →
      brotli_main eng fs a =
        (fs_set fs a.output [], ExitCode.brotli_error)) := by
  refine ⟨?_, ?_, ?_⟩
  · intro h
    simp [brotli_main, h]
  · intro hv hn
    simp [brotli_main, hv, hn]
  · intro data e hv hin hop
    simp [brotli_main, hv, hin, hop]

/-- C7 witness: the engine-error clause applied to the concrete failing
run of `engine_error_truncates_output_file`. -/
theorem error_paths_output_file_witness :
    brotli_main engFail fs_in args_e =
      (fs_set fs_in "out" [], ExitCode.brotli_error) :=
  (error_paths_output_file engFail fs_in args_e).2.2 [1] "boom"
    (by decide) (by decide) (by decide)

/-- C8: when `--lgwin` is not supplied, the exponent passed to `compress`
(and hence to the engine) is exactly `calc_lgwin (len data)`, and the whole
run is indistinguishable, for every engine, from the run in which the user
had supplied `calc_lgwin (len data)` explicitly. -/
theorem default_lgwin_from_payload (eng : Engine) (fs : FS) (a : Args)
    (data : List Nat) (hmode : a.emode = true) (hw : a.lgwin = none)
    (hin : fs a.infile = some data) :
    run_op eng a data =
      compress eng data a.quality (calc_lgwin data.length) a.lgblock
        MODE_GENERIC a.backward ∧
    brotli_main eng fs a =
      brotli_main eng fs (set_lgwin a (some (calc_lgwin data.length))) := by
  have hop : run_op eng a data =
      compress eng data a.quality (calc_lgwin data.length) a.lgblock
        MODE_GENERIC a.backward := by
    simp [run_op, hmode, hw]
  have hop' : run_op eng (set_lgwin a (some (calc_lgwin data.length))) data =
      compress eng data a.quality (calc_lgwin data.length) a.lgblock
        MODE_GENERIC a.backward := by
    simp [run_op, set_lgwin, hmode]
  have hdec : decide (10 ≤ calc_lgwin data.length ∧
      calc_lgwin data.length < 25) = true := by
    rw [decide_eq_true_eq]
    refine ⟨calc_lgwin_ge data.length, ?_⟩
    have h24 : calc_lgwin data.length ≤ 24 := calc_lgwin_le data.length
    omega
  have hcv : choices_ok (set_lgwin a (some (calc_lgwin data.length))) =
      choices_ok a := by
    simp [choices_ok, set_lgwin, hw, hdec]
  refine ⟨hop, ?_⟩
  unfold brotli_main
  rw [hcv]
  by_cases hc : choices_ok a = false
  · simp [hc]
  · have hct : choices_ok a = true := by
      cases hcase : choices_ok a
      · exact absurd hcase hc
      · rfl
    simp only [set_lgwin] at hop'
    simp [hct, hin, hop, hop', set_lgwin]

/-- C8 witness: with the default invocation (`--lgwin` absent) on the
1-byte input file, the operation run is `compress` at exponent
`calc_lgwin 1`. -/
theorem default_lgwin_from_payload_witness :
    run_op engRT args_e [1] =
      compress engRT [1] BROTLI_DEFAULT_QUALITY (calc_lgwin 1)
        BROTLI_DEFAULT_LGBLOCK MODE_GENERIC false :=
  (default_lgwin_from_payload engRT fs_in args_e [1] rfl rfl (by decide)).1

/-- C10: the `--gap` option has no effect on behavior: two invocations
identical except for the gap value (each within the accepted range 1-16)
produce, for every engine and every file system, the same resulting file
system (hence identical output bytes) and the same exit status — argparse
validates the value, but nothing ever reads it afterwards. -/
theorem gap_option_no_effect (eng : Engine) (fs : FS) (a : Args)
    (g g' : Nat) (hg : 1 ≤ g ∧ g < 17) (hg' : 1 ≤ g' ∧ g' < 17) :
    brotli_main eng fs (set_gap a g) = brotli_main eng fs (set_gap a g') := by
  have hdg : decide (1 ≤ g ∧ g < 17) = true := decide_eq_true hg
  have hdg' : decide (1 ≤ g' ∧ g' < 17) = true := decide_eq_true hg'
  have hcv : choices_ok (set_gap a g) = choices_ok (set_gap a g') := by
    simp [choices_ok, set_gap, hdg, hdg']
  unfold brotli_main
  rw [hcv]
  by_cases hc : choices_ok (set_gap a g') = false
  · simp [hc]
  · have hct : choices_ok (set_gap a g') = true := by
      cases hcase : choices_ok (set_gap a g')
      · exact absurd hcase hc
      · rfl
    simp [hct, set_gap, run_op]

/-- C10 witness: gap 1 and gap 16 runs coincide on a concrete
invocation. -/
theorem gap_option_no_effect_witness :
    brotli_main engRT fs_in (set_gap args_e 1) =
      brotli_main engRT fs_in (set_gap args_e 16) :=
  gap_option_no_effect engRT fs_in args_e 1 16 (by decide) (by decide)
